import Mathlib

/-!
Shallow embedding of the ALX_Polly request handlers.

Sources embedded here:
  app/lib/actions/poll-actions.ts  (isValidPollText, createPoll, getUserPolls,
                                    submitVote, deletePoll, updatePoll)
  app/lib/actions/auth-actions.ts  (isValidEmail, isStrongPassword, login,
                                    getCurrentUser, getSession)
  app/api/polls/route.ts           (POST handler)
  app/lib/context/auth-context.tsx (AuthProvider state machine)

Modelling conventions:
  - A string is its list of characters; lengths are counted per character.
  - The managed backend (Supabase) is a collaborator: its responses
    (authenticated user, query error) are explicit parameters, and the
    semantics of the query builders used by the source
    (insert, delete().eq().eq(), update().eq().eq(),
    select().eq().order(descending)) is given as pure list transformations
    on an explicit database state.
  - Every backend round trip and every cache-invalidation call performed by
    a handler is recorded in an effect trace, so that statements of the form
    "the backend is never contacted on this path" are equalities on traces.
  - JavaScript regular expressions are embedded by their matching semantics:
    in particular the dot of a regex without the dotAll flag matches every
    character except the four line terminators.
-/

/-- Line terminators excluded by the regex dot in JavaScript:
newline, carriage return, U+2028 and U+2029. -/
def isLineTerm (c : Char) : Bool :=
  c == '\n' || c == '\r' || c == Char.ofNat 0x2028 || c == Char.ofNat 0x2029

/-- ASCII lowercase letter, the character class of the source regex. -/
def isLowerAZ (c : Char) : Bool := 'a' ≤ c && c ≤ 'z'

/-- ASCII uppercase letter, the character class of the source regex. -/
def isUpperAZ (c : Char) : Bool := 'A' ≤ c && c ≤ 'Z'

/-- ASCII digit, the class matched by a regex backslash-d without the
unicode flag. -/
def isDigit09 (c : Char) : Bool := '0' ≤ c && c ≤ '9'

/-- The fixed special-character set of the password regex in
auth-actions.ts. The brace and quote characters are written by code point. -/
def specialChars : List Char :=
  ['!', '@', '#', '$', '%', '^', '&', '*', '(', ')', '_', '+', '-', '=',
   '[', ']', Char.ofNat 123, Char.ofNat 125, ';', Char.ofNat 39, ':',
   Char.ofNat 34, '\\', '|', ',', '.', '<', '>', '/', '?']

/-- Membership in the fixed special-character set. -/
def isSpecialChar (c : Char) : Bool := specialChars.contains c

/-- Whitespace as matched by the regex class backslash-s in JavaScript
(ASCII part plus no-break space and byte order mark). -/
def isJsSpace (c : Char) : Bool :=
  c == ' ' || c == '\t' || c == '\n' || c == '\r' ||
  c == Char.ofNat 11 || c == Char.ofNat 12 ||
  c == Char.ofNat 0xA0 || c == Char.ofNat 0xFEFF

/-! ### The script-tag regex of isValidPollText -/

/-- Matching of the lazy tail of the script-tag regex: some run of
non-line-terminator characters followed by a closing angle bracket. -/
def gtBeforeLineTerm : List Char → Bool
  | [] => false
  | c :: cs => if c == '>' then true else if isLineTerm c then false else gtBeforeLineTerm cs

/-- Case-insensitive literal matching at the head of a character list,
using ASCII lowering as the case-insensitive regex flag does for the
letters that occur in the pattern. -/
def startsWithCI : List Char → List Char → Bool
  | [], _ => true
  | _ :: _, [] => false
  | p :: ps, c :: cs => p.toLower == c.toLower && startsWithCI ps cs

/-- The literal part of the script-tag pattern. -/
def scriptPat : List Char := ['<', 's', 'c', 'r', 'i', 'p', 't']

/-- Matching of the whole script-tag regex of the source at any start
position of the text. -/
def hasScriptOpen : List Char → Bool
  | [] => false
  | c :: cs =>
    (startsWithCI scriptPat (c :: cs) && gtBeforeLineTerm ((c :: cs).drop 7))
    || hasScriptOpen cs

/-- Poll text validator of poll-actions.ts and route.ts: length between 2
and 200 and no match of the case-insensitive opening script-tag regex. -/
def isValidPollText (text : String) : Bool :=
  decide (2 ≤ text.length) && decide (text.length ≤ 200) && ! hasScriptOpen text.data

/-! ### The password-strength regex of auth-actions.ts -/

/-- Matching of one regex lookahead of the form dot-star followed by a
character class: some run of non-line-terminator characters followed by a
character of the class. -/
def lookaheadAny (cls : Char → Bool) : List Char → Bool
  | [] => false
  | c :: cs => cls c || (! isLineTerm c && lookaheadAny cls cs)

/-- Password strength validator of auth-actions.ts: the four lookaheads of
the source regex, then the anchored dot quantifier requiring at least eight
characters none of which is a line terminator. -/
def isStrongPassword (password : String) : Bool :=
  lookaheadAny isLowerAZ password.data &&
  lookaheadAny isUpperAZ password.data &&
  lookaheadAny isDigit09 password.data &&
  lookaheadAny isSpecialChar password.data &&
  decide (8 ≤ password.length) &&
  password.data.all (fun c => ! isLineTerm c)

/-- The characterization of password strength stated by the specification:
length at least eight and one character of each of the four classes. Kept
separate from the source embedding to compare the two. -/
def specStrongPassword (password : String) : Bool :=
  decide (8 ≤ password.length) &&
  password.data.any isLowerAZ &&
  password.data.any isUpperAZ &&
  password.data.any isDigit09 &&
  password.data.any isSpecialChar

/-! ### The email regex of auth-actions.ts -/

/-- Splitting a character list at its first at-sign, when there is one. -/
def splitAtFirstAt : List Char → Option (List Char × List Char)
  | [] => none
  | c :: cs =>
    if c == '@' then some ([], cs)
    else (splitAtFirstAt cs).map (fun p => (c :: p.1, p.2))

/-- Characters admitted on both sides of the at-sign by the email regex:
anything but an at-sign or whitespace. -/
def emailAtomChar (c : Char) : Bool := ! (c == '@') && ! isJsSpace c

/-- Email validator of auth-actions.ts: nonempty local part, nonempty
domain, no whitespace or second at-sign, and a dot at an interior position
of the domain. -/
def isValidEmail (email : String) : Bool :=
  match splitAtFirstAt email.data with
  | none => false
  | some (locPart, domPart) =>
    ! locPart.isEmpty && locPart.all emailAtomChar && domPart.all emailAtomChar &&
    ((domPart.drop 1).dropLast.contains '.')

/-! ### Data model -/

/-- Poll row of the polls table. -/
structure PollRow where
  id : String
  user_id : String
  question : String
  options : List String
  created_at : Nat
deriving Repr, DecidableEq

/-- Vote row of the votes table. -/
structure VoteRow where
  poll_id : String
  user_id : String
  option_index : Int
deriving Repr, DecidableEq

/-- Database state held by the backend. -/
structure DB where
  polls : List PollRow
  votes : List VoteRow
deriving Repr, DecidableEq

/-- Backend user metadata: the display name plus a stand-in for every other
metadata field, which the handlers must never expose. -/
structure UserMetadata where
  name : Option String
  extra : String
deriving Repr, DecidableEq

/-- Raw backend user object, with a stand-in sensitive field beyond the
projected ones. -/
structure BackendUser where
  id : String
  email : Option String
  user_metadata : Option UserMetadata
  phone : Option String
deriving Repr, DecidableEq

/-- Raw backend session object, with the refresh token as a stand-in for
the sensitive fields the handlers must never expose. -/
structure BackendSession where
  access_token : String
  refresh_token : String
  user : Option BackendUser
deriving Repr, DecidableEq

/-- Result of the backend getUser call: a possibly absent user and a
possibly absent error, as destructured by the handlers. -/
structure GetUserRes where
  user : Option BackendUser
  error : Option String
deriving Repr, DecidableEq

/-- One backend round trip or presentation-layer signal performed by a
handler, in order. The revalidatePolls effect is the revalidatePath call on
the poll listing route. -/
inductive Effect where
  | authGetUser
  | authSignIn
  | selectPolls
  | insertPolls
  | insertVotes
  | updatePolls
  | deletePolls
  | revalidatePolls
deriving Repr, DecidableEq

/-- Outcome of a mutating server action: the database afterwards, the
returned error field, and the effect trace. -/
structure ActionOut where
  db : DB
  error : Option String
  effects : List Effect
deriving Repr, DecidableEq

/-- Outcome of the getUserPolls server action. -/
structure PollsOut where
  polls : List PollRow
  error : Option String
  effects : List Effect
deriving Repr, DecidableEq

/-- Outcome of the login server action. -/
structure AuthActionOut where
  error : Option String
  effects : List Effect
deriving Repr, DecidableEq

/-- Outcome of the POST route handler. -/
structure RouteOut where
  status : Nat
  error : Option String
  poll : Option PollRow
  db : DB
  effects : List Effect
deriving Repr, DecidableEq

/-- Reduced user projection returned by getCurrentUser and held by the
session context. -/
structure SafeUser where
  id : String
  email : Option String
  name : Option String
deriving Repr, DecidableEq

/-- Reduced session projection returned by getSession. -/
structure SafeSession where
  user_id : Option String
  access_token : String
deriving Repr, DecidableEq

/-! ### Auth Gateway operations (auth-actions.ts) -/

/-- The login server action. The backend sign-in outcome is the parameter
signInErr: none on success, some raw error text on failure. Local
validation runs before any backend round trip; the raw backend error is
discarded in favor of the fixed generic message. -/
def login (email password : String) (signInErr : Option String) : AuthActionOut :=
  if isValidEmail email = false then
    ⟨some "Invalid email address.", []⟩
  else if isStrongPassword password = false then
    ⟨some "Password does not meet security requirements.", []⟩
  else
    match signInErr with
    | some _ => ⟨some "Authentication failed.", [Effect.authSignIn]⟩
    | none => ⟨none, [Effect.authSignIn]⟩

/-- The getCurrentUser server action, applied to the user field of the
backend getUser response: none when unauthenticated, else the reduced
projection of id, email and metadata name. -/
def getCurrentUser (res : Option BackendUser) : Option SafeUser :=
  match res with
  | none => none
  | some u => some ⟨u.id, u.email, u.user_metadata.bind UserMetadata.name⟩

/-- The getSession server action, applied to the session field of the
backend getSession response: none when there is no session, else the
reduced projection of the optional user id and the access token. -/
def getSession (res : Option BackendSession) : Option SafeSession :=
  match res with
  | none => none
  | some s => some ⟨s.user.map BackendUser.id, s.access_token⟩

/-! ### Poll Repository operations (poll-actions.ts) -/

/-- Characters removed at either end by the JavaScript trim method:
whitespace and line terminators. -/
def isTrimmable (c : Char) : Bool := isJsSpace c || isLineTerm c

/-- The JavaScript trim method: removal of leading and trailing
whitespace and line terminators. -/
def jsTrim (s : String) : String :=
  ⟨((s.data.dropWhile isTrimmable).reverse.dropWhile isTrimmable).reverse⟩

/-- Trimming of the raw question field: the source trims the form value
when present, and treats an absent value like the empty string in its
falsiness check. -/
def sanitizeQuestion (questionRaw : Option String) : String :=
  (questionRaw.map jsTrim).getD ""

/-- Trimming of each raw option and removal of the entries that become
empty, as the map and filter of the source do. -/
def trimFilter (optionsRaw : List String) : List String :=
  (optionsRaw.map jsTrim).filter (fun o => o ≠ "")

/-- The createPoll server action. Validation runs before the backend is
contacted; newId and now stand for the backend-assigned id and timestamp of
the inserted row; insertErr is the backend outcome of the insert. -/
def createPoll (questionRaw : Option String) (optionsRaw : List String)
    (authRes : GetUserRes) (insertErr : Option String)
    (newId : String) (now : Nat) (db : DB) : ActionOut :=
  if sanitizeQuestion questionRaw = "" ∨ (trimFilter optionsRaw).length < 2 then
    ⟨db, some "Please provide a question and at least two options.", []⟩
  else if isValidPollText (sanitizeQuestion questionRaw) = false then
    ⟨db, some "Invalid poll question.", []⟩
  else if (trimFilter optionsRaw).any (fun o => ! isValidPollText o) = true then
    ⟨db, some "Invalid poll option.", []⟩
  else
    match authRes.error with
    | some _ => ⟨db, some "Authentication failed.", [Effect.authGetUser]⟩
    | none =>
      match authRes.user with
      | none => ⟨db, some "You must be logged in to create a poll.", [Effect.authGetUser]⟩
      | some user =>
        match insertErr with
        | some _ => ⟨db, some "Poll creation failed.", [Effect.authGetUser, Effect.insertPolls]⟩
        | none =>
          ⟨⟨db.polls ++ [⟨newId, user.id, sanitizeQuestion questionRaw, trimFilter optionsRaw, now⟩],
             db.votes⟩,
            none, [Effect.authGetUser, Effect.insertPolls, Effect.revalidatePolls]⟩

/-- Descending order on creation timestamps, the order requested by the
getUserPolls query builder chain. -/
def pollAfter (a b : PollRow) : Prop := b.created_at ≤ a.created_at

instance : DecidableRel pollAfter :=
  fun a b => inferInstanceAs (Decidable (b.created_at ≤ a.created_at))

instance : IsTotal PollRow pollAfter :=
  ⟨fun a b => Nat.le_total b.created_at a.created_at⟩

instance : IsTrans PollRow pollAfter :=
  ⟨fun _ _ _ hab hbc => Nat.le_trans hbc hab⟩

/-- Semantics of the select query of getUserPolls: the rows of the polls
table owned by the given user, ordered by creation timestamp descending. -/
def queryUserPolls (uid : String) (db : DB) : List PollRow :=
  List.insertionSort pollAfter (db.polls.filter (fun p => p.user_id == uid))

/-- The getUserPolls server action. The source destructures only the user
field of the getUser response, so a backend auth error with no user falls
into the unauthenticated branch. -/
def getUserPolls (authRes : GetUserRes) (selectErr : Option String) (db : DB) : PollsOut :=
  match authRes.user with
  | none => ⟨[], some "Not authenticated", [Effect.authGetUser]⟩
  | some user =>
    match selectErr with
    | some _ => ⟨[], some "Failed to fetch polls.", [Effect.authGetUser, Effect.selectPolls]⟩
    | none => ⟨queryUserPolls user.id db, none, [Effect.authGetUser, Effect.selectPolls]⟩

/-- The submitVote server action. The source checks only that a user is
present, then inserts the vote row as given: neither the referenced poll
nor the option index is consulted. -/
def submitVote (pollId : String) (optionIndex : Int) (authRes : GetUserRes)
    (insertErr : Option String) (db : DB) : ActionOut :=
  match authRes.user with
  | none => ⟨db, some "You must be logged in to vote.", [Effect.authGetUser]⟩
  | some user =>
    match insertErr with
    | some _ => ⟨db, some "Vote submission failed.", [Effect.authGetUser, Effect.insertVotes]⟩
    | none =>
      ⟨⟨db.polls, db.votes ++ [⟨pollId, user.id, optionIndex⟩]⟩,
        none, [Effect.authGetUser, Effect.insertVotes]⟩

/-- The deletePoll server action. The delete query is scoped to rows
matching both the poll id and the user id of the caller. -/
def deletePoll (id : String) (authRes : GetUserRes) (deleteErr : Option String)
    (db : DB) : ActionOut :=
  match authRes.error with
  | some _ => ⟨db, some "Authentication failed.", [Effect.authGetUser]⟩
  | none =>
    match authRes.user with
    | none => ⟨db, some "You must be logged in to delete a poll.", [Effect.authGetUser]⟩
    | some user =>
      match deleteErr with
      | some _ => ⟨db, some "Poll deletion failed.", [Effect.authGetUser, Effect.deletePolls]⟩
      | none =>
        ⟨⟨db.polls.filter (fun p => ! (p.id == id && p.user_id == user.id)), db.votes⟩,
          none, [Effect.authGetUser, Effect.deletePolls, Effect.revalidatePolls]⟩

/-- The updatePoll server action. Validation mirrors createPoll; the update
query is scoped to rows matching both the poll id and the user id of the
caller, and rewrites only the question and options fields. -/
def updatePoll (pollId : String) (questionRaw : Option String) (optionsRaw : List String)
    (authRes : GetUserRes) (updateErr : Option String) (db : DB) : ActionOut :=
  if sanitizeQuestion questionRaw = "" ∨ (trimFilter optionsRaw).length < 2 then
    ⟨db, some "Please provide a question and at least two options.", []⟩
  else if isValidPollText (sanitizeQuestion questionRaw) = false then
    ⟨db, some "Invalid poll question.", []⟩
  else if (trimFilter optionsRaw).any (fun o => ! isValidPollText o) = true then
    ⟨db, some "Invalid poll option.", []⟩
  else
    match authRes.error with
    | some _ => ⟨db, some "Authentication failed.", [Effect.authGetUser]⟩
    | none =>
      match authRes.user with
      | none => ⟨db, some "You must be logged in to update a poll.", [Effect.authGetUser]⟩
      | some user =>
        match updateErr with
        | some _ => ⟨db, some "Poll update failed.", [Effect.authGetUser, Effect.updatePolls]⟩
        | none =>
          ⟨⟨db.polls.map (fun p =>
              if p.id == pollId && p.user_id == user.id then
                ⟨p.id, p.user_id, sanitizeQuestion questionRaw, trimFilter optionsRaw, p.created_at⟩
              else p),
             db.votes⟩,
            none, [Effect.authGetUser, Effect.updatePolls]⟩

/-- Modelled from the spec: the poll-edit call path of the repository,
which is not among the provided source files. Per the specification, in one
call path an update triggers the same cache-invalidation signal for the
poll listing view on success; no signal is emitted on failure. -/
def updatePollPath (pollId : String) (questionRaw : Option String) (optionsRaw : List String)
    (authRes : GetUserRes) (updateErr : Option String) (db : DB) : ActionOut :=
  match updatePoll pollId questionRaw optionsRaw authRes updateErr db with
  | ⟨db2, none, effects⟩ => ⟨db2, none, effects ++ [Effect.revalidatePolls]⟩
  | out => out

/-! ### The POST route handler (route.ts) -/

/-- The POST handler of the polls route. The body fields are the optional
question and the optional options array (none when absent or not an
array). Unlike the server action, the falsiness check on the question runs
before trimming, and the sanitized option count is checked separately with
its own message. -/
def postPolls (question : Option String) (options : Option (List String))
    (authRes : GetUserRes) (insertErr : Option String)
    (newId : String) (now : Nat) (db : DB) : RouteOut :=
  if question = none ∨ question = some "" ∨ options = none ∨ (options.getD []).length < 2 then
    ⟨400, some "Please provide a question and at least two options.", none, db, []⟩
  else if isValidPollText (jsTrim (question.getD "")) = false then
    ⟨400, some "Invalid poll question.", none, db, []⟩
  else if (trimFilter (options.getD [])).length < 2 then
    ⟨400, some "Please provide at least two valid options.", none, db, []⟩
  else if (trimFilter (options.getD [])).any (fun o => ! isValidPollText o) = true then
    ⟨400, some "Invalid poll option.", none, db, []⟩
  else
    match authRes.error with
    | some _ => ⟨401, some "Authentication failed.", none, db, [Effect.authGetUser]⟩
    | none =>
      match authRes.user with
      | none => ⟨401, some "You must be logged in to create a poll.", none, db, [Effect.authGetUser]⟩
      | some user =>
        match insertErr with
        | some _ => ⟨500, some "Poll creation failed.", none, db, [Effect.authGetUser, Effect.insertPolls]⟩
        | none =>
          ⟨201, none,
            some ⟨newId, user.id, jsTrim (question.getD ""), trimFilter (options.getD []), now⟩,
            ⟨db.polls ++ [⟨newId, user.id, jsTrim (question.getD ""), trimFilter (options.getD []), now⟩],
              db.votes⟩,
            [Effect.authGetUser, Effect.insertPolls]⟩

/-! ### Session Context Bridge (auth-context.tsx) -/

/-- JavaScript or-null applied to an optional name: an absent or empty
name collapses to null, as the or operator does on falsy values. -/
def jsOrNull : Option String → Option String
  | some s => if s = "" then none else some s
  | none => none

/-- Session projection held by the context: the user id defaulted to the
empty string as the or operator of the source does, and the access
token. -/
structure CtxSession where
  user_id : String
  access_token : String
deriving Repr, DecidableEq

/-- State of the AuthProvider component. -/
structure CtxState where
  user : Option SafeUser
  session : Option CtxSession
  loading : Bool
  error : Option String
deriving Repr, DecidableEq

/-- Initial state of the AuthProvider component. -/
def initialCtx : CtxState := ⟨none, none, true, none⟩

/-- User projection built by the context provider, with the or-null
collapse on the metadata name. -/
def projCtxUser (u : BackendUser) : SafeUser :=
  ⟨u.id, u.email, jsOrNull (u.user_metadata.bind UserMetadata.name)⟩

/-- Events delivered to the AuthProvider by the host: the eager fetch on
mount with its outcome, an auth-state-change notification with its
optional session, and a signOut call. -/
inductive CtxEvent where
  | initialFetch (err : Option String) (fetched : Option BackendUser)
  | authChange (session : Option BackendSession)
  | signOutEv
deriving Repr, DecidableEq

/-- Transition of the eager fetch on mount, in the still-mounted case: the
error state is set on a fetch error, the user state follows the fetched
user, the session state is set to null whatever the outcome, and loading
ends. -/
def applyInitialFetch (err : Option String) (fetched : Option BackendUser)
    (s : CtxState) : CtxState :=
  { user := fetched.map projCtxUser,
    session := none,
    loading := false,
    error := match err with
      | some _ => some "Failed to fetch user."
      | none => s.error }

/-- Transition of an auth-state-change notification: a delivered session
populates both projections, an absent session clears both. -/
def applyAuthChange (sess : Option BackendSession) (s : CtxState) : CtxState :=
  match sess with
  | some bs =>
    { s with
      session := some ⟨(bs.user.map BackendUser.id).getD "", bs.access_token⟩,
      user := bs.user.map projCtxUser }
  | none => { s with session := none, user := none }

/-- Transition of the signOut call: the optimistic local clear. -/
def applySignOut (s : CtxState) : CtxState :=
  { s with user := none, session := none }

/-- One step of the AuthProvider state machine. -/
def stepCtx : CtxEvent → CtxState → CtxState
  | CtxEvent.initialFetch err u, s => applyInitialFetch err u s
  | CtxEvent.authChange sess, s => applyAuthChange sess s
  | CtxEvent.signOutEv, s => applySignOut s

/-- Run of the AuthProvider state machine over a sequence of delivered
events. -/
def runCtx (evs : List CtxEvent) (s : CtxState) : CtxState :=
  evs.foldl (fun st e => stepCtx e st) s

/-- Whether an event is an auth-state-change notification carrying a
session. -/
def carriesSession : CtxEvent → Bool
  | CtxEvent.authChange (some _) => true
  | _ => false

/-! ### Declarative regex characterizations and concrete witness data -/

/-- Declarative reading of the opening script-tag regex: somewhere in the
text, the seven-character literal up to case, then some run of
non-line-terminator characters, then a closing angle bracket. -/
def ContainsScriptOpen (l : List Char) : Prop :=
  ∃ pre tag mid post, l = pre ++ (tag ++ (mid ++ '>' :: post)) ∧
    tag.map Char.toLower = scriptPat ∧ ∀ c ∈ mid, isLineTerm c = false

/-- Concrete backend user for witness instances. -/
def u0 : BackendUser := ⟨"user-1", some "a@b.com", some ⟨some "Ada", "internal-metadata"⟩, none⟩

/-- The same backend user with a different sensitive field. -/
def u0phone : BackendUser := ⟨"user-1", some "a@b.com", some ⟨some "Ada", "internal-metadata"⟩, some "555-0100"⟩

/-- Concrete backend session for witness instances. -/
def s0 : BackendSession := ⟨"token-abc", "refresh-1", some u0⟩

/-- The same backend session with a different refresh token. -/
def s0r : BackendSession := ⟨"token-abc", "refresh-2", some u0⟩

/-- Concrete database for witness instances: one poll owned by the witness
user and one owned by someone else, each with two options. -/
def db0 : DB :=
  ⟨[⟨"p1", "user-1", "Favorite color?", ["Red", "Blue"], 5⟩,
    ⟨"p2", "user-2", "Best pet?", ["Cat", "Dog"], 9⟩], []⟩

/-! ### Lemmas about the regex embeddings -/

/-- Soundness and completeness of the lazy tail matcher: it succeeds
exactly on lists that decompose as a non-line-terminator run followed by a
closing angle bracket. -/
theorem gtBeforeLineTerm_iff (l : List Char) :
    gtBeforeLineTerm l = true ↔
      ∃ mid post, l = mid ++ '>' :: post ∧ ∀ c ∈ mid, isLineTerm c = false := by
  induction l with
  | nil =>
    simp only [gtBeforeLineTerm]
    constructor
    · intro h; exact absurd h (by simp)
    · rintro ⟨mid, post, h, -⟩
      cases mid <;> simp at h
  | cons c cs ih =>
    cases hc : c == '>' with
    | true =>
      have hc' : c = '>' := by simpa using hc
      subst hc'
      simp only [gtBeforeLineTerm, if_pos rfl]  -- placeholder, fixed below if needed
      constructor
      · intro _; exact ⟨[], cs, rfl, by simp⟩
      · intro _; rfl
    | false =>
      have hc' : c ≠ '>' := by simpa using hc
      cases hlt : isLineTerm c with
      | true =>
        rw [gtBeforeLineTerm, hc, if_neg (by simp), hlt, if_pos rfl]
        constructor
        · intro h; exact absurd h (by simp)
        · rintro ⟨mid, post, h, hmid⟩
          cases mid with
          | nil =>
            rw [List.nil_append] at h
            exact absurd (List.head_eq_of_cons_eq h) hc'
          | cons m ms =>
            rw [List.cons_append] at h
            have hcm : c = m := List.head_eq_of_cons_eq h
            have := hmid m (by simp)
            rw [← hcm, hlt] at this
            exact absurd this (by simp)
      | false =>
        rw [gtBeforeLineTerm, hc, if_neg (by simp), hlt, if_neg (by simp)]
        rw [ih]
        constructor
        · rintro ⟨mid, post, hEq, hmid⟩
          refine ⟨c :: mid, post, by rw [List.cons_append, hEq], ?_⟩
          intro x hx
          rcases List.mem_cons.mp hx with hx | hx
          · rw [hx]; exact hlt
          · exact hmid x hx
        · rintro ⟨mid, post, hEq, hmid⟩
          cases mid with
          | nil =>
            rw [List.nil_append] at hEq
            exact absurd (List.head_eq_of_cons_eq hEq) hc'
          | cons m ms =>
            rw [List.cons_append] at hEq
            refine ⟨ms, post, List.tail_eq_of_cons_eq hEq, ?_⟩
            intro x hx
            exact hmid x (List.mem_cons_of_mem m hx)

/-- Soundness and completeness of case-insensitive literal matching: it
succeeds exactly when the list starts with a segment whose ASCII lowering
is that of the pattern. -/
theorem startsWithCI_iff (pat l : List Char) :
    startsWithCI pat l = true ↔
      ∃ tag rest, l = tag ++ rest ∧ tag.map Char.toLower = pat.map Char.toLower := by
  induction pat generalizing l with
  | nil =>
    simp only [startsWithCI, List.map_nil]
    constructor
    · intro _; exact ⟨[], l, rfl, by simp⟩
    · intro _; trivial
  | cons p ps ih =>
    cases l with
    | nil =>
      simp only [startsWithCI]
      constructor
      · intro h; exact absurd h (by simp)
      · rintro ⟨tag, rest, hEq, hMap⟩
        cases tag with
        | nil => simp at hMap
        | cons t ts => simp at hEq
    | cons c cs =>
      simp only [startsWithCI, Bool.and_eq_true, beq_iff_eq]
      rw [ih]
      constructor
      · rintro ⟨hpc, tag, rest, hEq, hMap⟩
        refine ⟨c :: tag, rest, by rw [List.cons_append, hEq], ?_⟩
        simp only [List.map_cons, hMap, hpc]
      · rintro ⟨tag, rest, hEq, hMap⟩
        cases tag with
        | nil => simp at hMap
        | cons t ts =>
          rw [List.cons_append] at hEq
          have htc : t = c := (List.head_eq_of_cons_eq hEq.symm)
          simp only [List.map_cons, List.cons_eq_cons] at hMap
          subst htc
          refine ⟨hMap.1.symm, ts, rest, List.tail_eq_of_cons_eq hEq, hMap.2⟩

/-- Soundness and completeness of the script-tag matcher with respect to
its declarative reading. -/
theorem hasScriptOpen_iff (l : List Char) :
    hasScriptOpen l = true ↔ ContainsScriptOpen l := by
  induction l with
  | nil =>
    simp only [hasScriptOpen, ContainsScriptOpen]
    constructor
    · intro h; exact absurd h (by simp)
    · rintro ⟨pre, tag, mid, post, hEq, -, -⟩
      simp at hEq
  | cons c cs ih =>
    rw [hasScriptOpen]
    simp only [Bool.or_eq_true, Bool.and_eq_true]
    constructor
    · rintro (⟨hs, hg⟩ | h)
      · obtain ⟨tag, rest, hEq, hMap⟩ := (startsWithCI_iff scriptPat (c :: cs)).mp hs
        have hMap' : tag.map Char.toLower = scriptPat := by
          rw [hMap]; decide
        have hlen : tag.length = 7 := by
          have h7 := congrArg List.length hMap'
          simpa [scriptPat] using h7
        have hdrop : (c :: cs).drop 7 = rest := by
          rw [hEq, ← hlen, List.drop_left]
        rw [hdrop] at hg
        obtain ⟨mid, post, hEq2, hmid⟩ := (gtBeforeLineTerm_iff rest).mp hg
        refine ⟨[], tag, mid, post, ?_, hMap', hmid⟩
        rw [List.nil_append, ← hEq2, hEq]
      · obtain ⟨pre, tag, mid, post, hEq, hMap, hmid⟩ := ih.mp h
        exact ⟨c :: pre, tag, mid, post, by rw [List.cons_append, hEq], hMap, hmid⟩
    · rintro ⟨pre, tag, mid, post, hEq, hMap, hmid⟩
      cases pre with
      | nil =>
        left
        rw [List.nil_append] at hEq
        have hlen : tag.length = 7 := by
          have h7 := congrArg List.length hMap
          simpa [scriptPat] using h7
        constructor
        · apply (startsWithCI_iff scriptPat (c :: cs)).mpr
          refine ⟨tag, mid ++ '>' :: post, hEq, ?_⟩
          rw [hMap]; decide
        · have hdrop : (c :: cs).drop 7 = mid ++ '>' :: post := by
            rw [hEq, ← hlen, List.drop_left]
          rw [hdrop]
          exact (gtBeforeLineTerm_iff _).mpr ⟨mid, post, rfl, hmid⟩
      | cons p ps =>
        right
        apply ih.mpr
        rw [List.cons_append] at hEq
        exact ⟨ps, tag, mid, post, List.tail_eq_of_cons_eq hEq, hMap, hmid⟩

/-- On line-terminator-free text a lookahead succeeds exactly when some
character of its class occurs. -/
theorem lookaheadAny_exists (cls : Char → Bool) (l : List Char)
    (hl : ∀ c ∈ l, isLineTerm c = false) :
    lookaheadAny cls l = true ↔ ∃ c ∈ l, cls c = true := by
  induction l with
  | nil => simp [lookaheadAny]
  | cons c cs ih =>
    have hc : isLineTerm c = false := hl c (by simp)
    have hcs : ∀ x ∈ cs, isLineTerm x = false := fun x hx => hl x (List.mem_cons_of_mem c hx)
    rw [lookaheadAny, hc]
    simp only [Bool.not_false, Bool.true_and, Bool.or_eq_true]
    rw [ih hcs]
    constructor
    · rintro (h | ⟨x, hx, hclsx⟩)
      · exact ⟨c, by simp, h⟩
      · exact ⟨x, List.mem_cons_of_mem c hx, hclsx⟩
    · rintro ⟨x, hx, hclsx⟩
      rcases List.mem_cons.mp hx with hx | hx
      · subst hx; exact Or.inl hclsx
      · exact Or.inr ⟨x, hx, hclsx⟩

/-- C4: for every string s, isValidPollText s is false when the length of
s is below 2 or above 200 or s contains a match of the case-insensitive
opening script-tag pattern, and true for every other string in range. The
function is a total boolean-valued function by construction. -/
theorem isValidPollText_spec (s : String) :
    isValidPollText s = true ↔
      2 ≤ s.length ∧ s.length ≤ 200 ∧ ¬ ContainsScriptOpen s.data := by
  rw [isValidPollText]
  simp only [Bool.and_eq_true, decide_eq_true_eq, Bool.not_eq_true']
  rw [← Bool.not_eq_true, hasScriptOpen_iff]
  exact and_assoc

/-- Witness for the poll text characterization at a concrete string. -/
theorem isValidPollText_spec_witness :
    2 ≤ ("Favorite color?" : String).length ∧
      ("Favorite color?" : String).length ≤ 200 ∧
      ¬ ContainsScriptOpen ("Favorite color?" : String).data :=
  (isValidPollText_spec "Favorite color?").mp (by decide)

/-- Counterexample to C9 as stated: a nine-character password holding one
character of each required class, which the source regex nonetheless
rejects because its dot quantifier cannot consume the newline. -/
theorem isStrongPassword_newline_cex :
    specStrongPassword "Abcdef1!\n" = true ∧ isStrongPassword "Abcdef1!\n" = false := by
  constructor
  · decide
  · decide

/-- C9 amended: isStrongPassword p is true exactly when p has length at
least 8, contains no line-terminator character, and contains at least one
lowercase letter, one uppercase letter, one digit and one character of the
fixed special set. -/
theorem isStrongPassword_characterization (p : String) :
    isStrongPassword p = true ↔
      8 ≤ p.length ∧ (∀ c ∈ p.data, isLineTerm c = false) ∧
      (∃ c ∈ p.data, isLowerAZ c = true) ∧ (∃ c ∈ p.data, isUpperAZ c = true) ∧
      (∃ c ∈ p.data, isDigit09 c = true) ∧ (∃ c ∈ p.data, isSpecialChar c = true) := by
  rw [isStrongPassword]
  simp only [Bool.and_eq_true, decide_eq_true_eq, List.all_eq_true, Bool.not_eq_true']
  constructor
  · rintro ⟨⟨⟨⟨⟨hlo, hup⟩, hdg⟩, hsp⟩, hlen⟩, hnl⟩
    exact ⟨hlen, hnl,
      (lookaheadAny_exists isLowerAZ p.data hnl).mp hlo,
      (lookaheadAny_exists isUpperAZ p.data hnl).mp hup,
      (lookaheadAny_exists isDigit09 p.data hnl).mp hdg,
      (lookaheadAny_exists isSpecialChar p.data hnl).mp hsp⟩
  · rintro ⟨hlen, hnl, hlo, hup, hdg, hsp⟩
    exact ⟨⟨⟨⟨⟨(lookaheadAny_exists isLowerAZ p.data hnl).mpr hlo,
      (lookaheadAny_exists isUpperAZ p.data hnl).mpr hup⟩,
      (lookaheadAny_exists isDigit09 p.data hnl).mpr hdg⟩,
      (lookaheadAny_exists isSpecialChar p.data hnl).mpr hsp⟩, hlen⟩, hnl⟩

/-- Witness for the amended password characterization at a concrete
password. -/
theorem isStrongPassword_characterization_witness :
    8 ≤ ("Passw0rd!" : String).length ∧
      (∀ c ∈ ("Passw0rd!" : String).data, isLineTerm c = false) ∧
      (∃ c ∈ ("Passw0rd!" : String).data, isLowerAZ c = true) ∧
      (∃ c ∈ ("Passw0rd!" : String).data, isUpperAZ c = true) ∧
      (∃ c ∈ ("Passw0rd!" : String).data, isDigit09 c = true) ∧
      (∃ c ∈ ("Passw0rd!" : String).data, isSpecialChar c = true) :=
  (isStrongPassword_characterization "Passw0rd!").mp (by decide)

/-! ### List helper lemmas -/

/-- Filtering by g after filtering by f is filtering by g alone when g
implies f. -/
theorem filter_filter_of_imp {α : Type} (f g : α → Bool) (l : List α)
    (h : ∀ a, g a = true → f a = true) :
    (l.filter f).filter g = l.filter g := by
  induction l with
  | nil => rfl
  | cons a l ih =>
    cases hg : g a with
    | true =>
      have hf := h a hg
      simp [List.filter_cons, hf, hg, ih]
    | false =>
      cases hf : f a with
      | true => simp [List.filter_cons, hf, hg, ih]
      | false => simp [List.filter_cons, hf, hg, ih]

/-- Filtering by g after a map that preserves g and is the identity on the
rows g keeps is filtering by g alone. -/
theorem filter_map_of_preserve {α : Type} (f : α → α) (g : α → Bool) (l : List α)
    (hpres : ∀ a, g (f a) = g a) (hid : ∀ a, g a = true → f a = a) :
    (l.map f).filter g = l.filter g := by
  induction l with
  | nil => rfl
  | cons a l ih =>
    cases hg : g a with
    | true =>
      have := hid a hg
      simp [List.filter_cons, hpres a, hg, this, ih]
    | false =>
      simp [List.filter_cons, hpres a, hg, ih]

/-- A map whose function fixes every element of the list is the
identity. -/
theorem map_eq_self_of {α : Type} (f : α → α) (l : List α)
    (h : ∀ a ∈ l, f a = a) : l.map f = l := by
  induction l with
  | nil => rfl
  | cons a l ih =>
    rw [List.map_cons, h a (by simp), ih (fun x hx => h x (List.mem_cons_of_mem a hx))]

/-! ### Claim theorems about the Auth Gateway -/

/-- C2: login returns a local validation error and performs no backend
round trip when local validation fails; any two backend failures produce
identical results; and on every backend failure after passing validation
the returned error is the single fixed generic message. -/
theorem login_validation_and_generic_error (email password : String) :
    (isValidEmail email = false →
      ∀ r, login email password r = ⟨some "Invalid email address.", []⟩) ∧
    (isValidEmail email = true → isStrongPassword password = false →
      ∀ r, login email password r = ⟨some "Password does not meet security requirements.", []⟩) ∧
    (∀ e1 e2, login email password (some e1) = login email password (some e2)) ∧
    (isValidEmail email = true → isStrongPassword password = true →
      ∀ e, login email password (some e) = ⟨some "Authentication failed.", [Effect.authSignIn]⟩) := by
  refine ⟨?_, ?_, ?_, ?_⟩
  · intro h r
    rw [login.eq_def, if_pos h]
  · intro h1 h2 r
    rw [login.eq_def, if_neg (by simp [h1]), if_pos h2]
  · intro e1 e2
    cases hv : isValidEmail email <;> cases hp : isStrongPassword password <;>
      simp [login, hv, hp]
  · intro h1 h2 e
    rw [login.eq_def, if_neg (by simp [h1]), if_neg (by simp [h2])]

/-- Witness for the login claim: a backend failure with specific raw text
surfaces only as the fixed generic message, with one sign-in round trip. -/
theorem login_generic_error_witness :
    login "a@b.com" "Passw0rd!" (some "Invalid login credentials") =
      ⟨some "Authentication failed.", [Effect.authSignIn]⟩ := by
  have h := login_validation_and_generic_error "a@b.com" "Passw0rd!"
  exact h.2.2.2 (by decide) (by decide) "Invalid login credentials"

/-- C8: getCurrentUser and getSession are null in the absent case and
otherwise return exactly the reduced projections, whose type carries only
the projected fields; their outputs are determined by those fields alone,
so no other backend field influences what a caller can observe. -/
theorem projections_safe_fields :
    (getCurrentUser none = none) ∧
    (∀ u : BackendUser, getCurrentUser (some u) =
      some ⟨u.id, u.email, u.user_metadata.bind UserMetadata.name⟩) ∧
    (∀ u1 u2 : BackendUser, u1.id = u2.id → u1.email = u2.email →
      u1.user_metadata.bind UserMetadata.name = u2.user_metadata.bind UserMetadata.name →
      getCurrentUser (some u1) = getCurrentUser (some u2)) ∧
    (getSession none = none) ∧
    (∀ s : BackendSession, getSession (some s) =
      some ⟨s.user.map BackendUser.id, s.access_token⟩) ∧
    (∀ s1 s2 : BackendSession, s1.access_token = s2.access_token →
      s1.user.map BackendUser.id = s2.user.map BackendUser.id →
      getSession (some s1) = getSession (some s2)) := by
  refine ⟨rfl, fun u => rfl, ?_, rfl, fun s => rfl, ?_⟩
  · intro u1 u2 h1 h2 h3
    simp [getCurrentUser, h1, h2, h3]
  · intro s1 s2 h1 h2
    simp [getSession, h1, h2]

/-- Witness for the projection claim: two backend users differing only in
a sensitive field, and two backend sessions differing only in the refresh
token, are indistinguishable through the projections. -/
theorem projections_safe_fields_witness :
    getCurrentUser (some u0) = getCurrentUser (some u0phone) ∧
    getSession (some s0) = getSession (some s0r) := by
  have h := projections_safe_fields
  exact ⟨h.2.2.1 u0 u0phone rfl rfl rfl, h.2.2.2.2.2 s0 s0r rfl rfl⟩

/-! ### Claim theorems about the Poll Repository -/

/-- C3: submitVote requires a logged-in user — failing with the fixed
message and no insert otherwise — and, for any authenticated caller, any
poll id and any integer option index whatever, a successful backend insert
records exactly the given vote row: no bound on the option index against
the referenced poll is consulted anywhere. -/
theorem submitVote_no_bounds_check (pollId : String) (optionIndex : Int)
    (authRes : GetUserRes) (insertErr : Option String) (db : DB) :
    (authRes.user = none →
      submitVote pollId optionIndex authRes insertErr db =
        ⟨db, some "You must be logged in to vote.", [Effect.authGetUser]⟩) ∧
    (∀ u, authRes.user = some u → insertErr = none →
      submitVote pollId optionIndex authRes insertErr db =
        ⟨⟨db.polls, db.votes ++ [⟨pollId, u.id, optionIndex⟩]⟩, none,
          [Effect.authGetUser, Effect.insertVotes]⟩) := by
  constructor
  · intro h
    simp [submitVote, h]
  · intro u hu hi
    simp [submitVote, hu, hi]

/-- Witness for the vote claim: option index 99 against a two-option poll
is accepted at this layer. -/
theorem submitVote_out_of_range_witness :
    (∀ p ∈ db0.polls, p.id = "p1" → p.options.length = 2) ∧
    submitVote "p1" 99 ⟨some u0, none⟩ none db0 =
      ⟨⟨db0.polls, db0.votes ++ [⟨"p1", u0.id, 99⟩]⟩, none,
        [Effect.authGetUser, Effect.insertVotes]⟩ := by
  have h := submitVote_no_bounds_check "p1" 99 ⟨some u0, none⟩ none db0
  exact ⟨by decide, h.2 u0 rfl rfl⟩

/-- C5: with fewer than two trimmed non-empty options, the createPoll
server action fails with the fixed count message and an empty effect
trace — no authentication check and no insert — for every authentication
state; and under the same condition on its sanitized options the POST
route handler likewise answers 400 with an empty effect trace. -/
theorem createPoll_too_few_options (questionRaw : Option String) (optionsRaw : List String)
    (authRes : GetUserRes) (insertErr : Option String) (newId : String) (now : Nat) (db : DB)
    (h : (trimFilter optionsRaw).length < 2) :
    createPoll questionRaw optionsRaw authRes insertErr newId now db =
      ⟨db, some "Please provide a question and at least two options.", []⟩ ∧
    ∀ question options, (trimFilter (options.getD [])).length < 2 →
      ((postPolls question options authRes insertErr newId now db).status = 400 ∧
        (postPolls question options authRes insertErr newId now db).effects = []) := by
  constructor
  · rw [createPoll.eq_def, if_pos (Or.inr h)]
  · intro q o ho
    rw [postPolls.eq_def]
    by_cases h1 : q = none ∨ q = some "" ∨ o = none ∨ (o.getD []).length < 2
    · rw [if_pos h1]
      exact ⟨rfl, rfl⟩
    · rw [if_neg h1]
      by_cases h2 : isValidPollText (jsTrim (q.getD "")) = false
      · rw [if_pos h2]
        exact ⟨rfl, rfl⟩
      · rw [if_neg h2, if_pos ho]
        exact ⟨rfl, rfl⟩

/-- Witness for the option-count claim at a concrete call: one option
survives trimming, the caller is even authenticated, and both handlers
stop before any backend round trip. -/
theorem createPoll_too_few_options_witness :
    createPoll (some "Favorite color?") ["Red", ""] ⟨some u0, none⟩ none "p9" 7 db0 =
      ⟨db0, some "Please provide a question and at least two options.", []⟩ ∧
    (postPolls (some "Favorite color?") (some ["Red", ""]) ⟨some u0, none⟩ none "p9" 7 db0).status = 400 ∧
    (postPolls (some "Favorite color?") (some ["Red", ""]) ⟨some u0, none⟩ none "p9" 7 db0).effects = [] := by
  have h := createPoll_too_few_options (some "Favorite color?") ["Red", ""]
    ⟨some u0, none⟩ none "p9" 7 db0 (by decide)
  exact ⟨h.1, h.2 (some "Favorite color?") (some ["Red", ""]) (by decide)⟩

/-- C6: getUserPolls with no authenticated user answers exactly the empty
list with the fixed message after only the identity check; with an
authenticated user and a successful select it answers, without error, a
permutation of exactly the polls owned by the caller, every one of them
owned by the caller, sorted by creation timestamp descending. -/
theorem getUserPolls_auth_and_ordering (authRes : GetUserRes) (selectErr : Option String) (db : DB) :
    (authRes.user = none →
      getUserPolls authRes selectErr db = ⟨[], some "Not authenticated", [Effect.authGetUser]⟩) ∧
    (∀ u, authRes.user = some u → selectErr = none →
      (getUserPolls authRes selectErr db).error = none ∧
      List.Perm (getUserPolls authRes selectErr db).polls
        (db.polls.filter (fun p => p.user_id == u.id)) ∧
      (∀ p ∈ (getUserPolls authRes selectErr db).polls, p.user_id = u.id) ∧
      List.Sorted pollAfter (getUserPolls authRes selectErr db).polls) := by
  constructor
  · intro h
    simp [getUserPolls, h]
  · intro u hu hs
    have hq : getUserPolls authRes selectErr db =
        ⟨queryUserPolls u.id db, none, [Effect.authGetUser, Effect.selectPolls]⟩ := by
      simp [getUserPolls, hu, hs]
    rw [hq]
    refine ⟨rfl, List.perm_insertionSort pollAfter _, ?_, List.sorted_insertionSort pollAfter _⟩
    intro p hp
    have hp2 : p ∈ db.polls.filter (fun p => p.user_id == u.id) :=
      (List.perm_insertionSort pollAfter _).subset hp
    have hp3 := List.of_mem_filter hp2
    simpa using hp3

/-- Witness for the getUserPolls claim: the unauthenticated answer, and
the authenticated answer over the concrete two-owner database. -/
theorem getUserPolls_auth_and_ordering_witness :
    getUserPolls ⟨none, none⟩ none db0 = ⟨[], some "Not authenticated", [Effect.authGetUser]⟩ ∧
    (getUserPolls ⟨some u0, none⟩ none db0).error = none ∧
    List.Perm (getUserPolls ⟨some u0, none⟩ none db0).polls
      (db0.polls.filter (fun p => p.user_id == u0.id)) ∧
    (∀ p ∈ (getUserPolls ⟨some u0, none⟩ none db0).polls, p.user_id = u0.id) ∧
    List.Sorted pollAfter (getUserPolls ⟨some u0, none⟩ none db0).polls :=
  ⟨(getUserPolls_auth_and_ordering ⟨none, none⟩ none db0).1 rfl,
    (getUserPolls_auth_and_ordering ⟨some u0, none⟩ none db0).2 u0 rfl rfl⟩

/-- Case analysis of the database reached by deletePoll: either untouched,
or filtered by the double ownership condition of the delete query. -/
theorem deletePoll_db_cases (id : String) (authRes : GetUserRes) (delErr : Option String)
    (db : DB) :
    (deletePoll id authRes delErr db).db = db ∨
    ∃ u, authRes.user = some u ∧
      (deletePoll id authRes delErr db).db =
        ⟨db.polls.filter (fun p => ! (p.id == id && p.user_id == u.id)), db.votes⟩ := by
  rw [deletePoll.eq_def]
  cases authRes.error with
  | some e => left; rfl
  | none =>
    cases hu : authRes.user with
    | none => left; rfl
    | some u =>
      cases delErr with
      | some e => left; rfl
      | none => right; exact ⟨u, rfl, rfl⟩

/-- Case analysis of the database reached by updatePoll: either untouched,
or rewritten by the map that touches only the rows matching the double
ownership condition of the update query. -/
theorem updatePoll_db_cases (pollId : String) (questionRaw : Option String)
    (optionsRaw : List String) (authRes : GetUserRes) (updErr : Option String) (db : DB) :
    (updatePoll pollId questionRaw optionsRaw authRes updErr db).db = db ∨
    ∃ u, authRes.user = some u ∧
      (updatePoll pollId questionRaw optionsRaw authRes updErr db).db =
        ⟨db.polls.map (fun p =>
            if p.id == pollId && p.user_id == u.id then
              ⟨p.id, p.user_id, sanitizeQuestion questionRaw, trimFilter optionsRaw, p.created_at⟩
            else p),
          db.votes⟩ := by
  rw [updatePoll.eq_def]
  by_cases h1 : sanitizeQuestion questionRaw = "" ∨ (trimFilter optionsRaw).length < 2
  · rw [if_pos h1]; left; rfl
  · rw [if_neg h1]
    by_cases h2 : isValidPollText (sanitizeQuestion questionRaw) = false
    · rw [if_pos h2]; left; rfl
    · rw [if_neg h2]
      by_cases h3 : (trimFilter optionsRaw).any (fun o => ! isValidPollText o) = true
      · rw [if_pos h3]; left; rfl
      · rw [if_neg h3]
        cases authRes.error with
        | some e => left; rfl
        | none =>
          cases hu : authRes.user with
          | none => left; rfl
          | some u =>
            cases updErr with
            | some e => left; rfl
            | none => right; exact ⟨u, rfl, rfl⟩

/-- C1: the delete and update queries are scoped to rows matching both the
poll id and the caller id, so rows of any other owner pass through both
operations untouched on every path; and when the caller owns no row
matching the id — wrong owner or absent id — a successful round trip
leaves the database unchanged and still reports success. -/
theorem deletePoll_updatePoll_owner_scoped
    (id : String) (questionRaw : Option String) (optionsRaw : List String)
    (authRes : GetUserRes) (delErr updErr : Option String) (db : DB) :
    (∀ u, authRes.user = some u →
      (deletePoll id authRes delErr db).db.polls.filter (fun p => ! (p.user_id == u.id)) =
        db.polls.filter (fun p => ! (p.user_id == u.id)) ∧
      (updatePoll id questionRaw optionsRaw authRes updErr db).db.polls.filter
          (fun p => ! (p.user_id == u.id)) =
        db.polls.filter (fun p => ! (p.user_id == u.id))) ∧
    (∀ u, authRes = ⟨some u, none⟩ →
      (∀ p ∈ db.polls, ¬ (p.id = id ∧ p.user_id = u.id)) →
      (delErr = none →
        deletePoll id authRes delErr db =
          ⟨db, none, [Effect.authGetUser, Effect.deletePolls, Effect.revalidatePolls]⟩) ∧
      (updErr = none →
        ¬ (sanitizeQuestion questionRaw = "" ∨ (trimFilter optionsRaw).length < 2) →
        ¬ (isValidPollText (sanitizeQuestion questionRaw) = false) →
        ¬ ((trimFilter optionsRaw).any (fun o => ! isValidPollText o) = true) →
        updatePoll id questionRaw optionsRaw authRes updErr db =
          ⟨db, none, [Effect.authGetUser, Effect.updatePolls]⟩)) := by
  constructor
  · intro u hu
    constructor
    · rcases deletePoll_db_cases id authRes delErr db with hc | ⟨u2, hu2, hc⟩
      · rw [hc]
      · have huu : u2 = u := by
          rw [hu2] at hu
          exact Option.some_inj.mp hu
        subst huu
        rw [hc]
        refine filter_filter_of_imp _ _ db.polls ?_
        intro a ha
        rw [Bool.not_eq_true'] at ha
        simp [ha]
    · rcases updatePoll_db_cases id questionRaw optionsRaw authRes updErr db with hc | ⟨u2, hu2, hc⟩
      · rw [hc]
      · have huu : u2 = u := by
          rw [hu2] at hu
          exact Option.some_inj.mp hu
        rw [huu] at hc
        rw [hc]
        refine filter_map_of_preserve _ _ db.polls ?_ ?_
        · intro a
          dsimp only
          by_cases hcond : (a.id == id && a.user_id == u.id) = true
          · rw [if_pos hcond]
          · rw [if_neg hcond]
        · intro a ha
          rw [Bool.not_eq_true'] at ha
          dsimp only
          rw [if_neg (by simp [ha])]
  · intro u hAuth hp
    subst hAuth
    have hallb : ∀ a ∈ db.polls, (! (a.id == id && a.user_id == u.id)) = true := by
      intro a ha
      have h2 := hp a ha
      cases hbid : a.id == id with
      | false => simp [hbid]
      | true =>
        have h3 : a.id = id := by simpa using hbid
        have h4 : a.user_id ≠ u.id := fun hcon => h2 ⟨h3, hcon⟩
        simp [hbid, h4]
    constructor
    · intro hdel
      subst hdel
      have hstep : deletePoll id ⟨some u, none⟩ none db =
          ⟨⟨db.polls.filter (fun p => ! (p.id == id && p.user_id == u.id)), db.votes⟩,
            none, [Effect.authGetUser, Effect.deletePolls, Effect.revalidatePolls]⟩ := rfl
      rw [hstep, List.filter_eq_self.mpr hallb]
    · intro hupd hv1 hv2 hv3
      subst hupd
      have hstep : updatePoll id questionRaw optionsRaw ⟨some u, none⟩ none db =
          ⟨⟨db.polls.map (fun p =>
              if p.id == id && p.user_id == u.id then
                ⟨p.id, p.user_id, sanitizeQuestion questionRaw, trimFilter optionsRaw,
                  p.created_at⟩
              else p),
             db.votes⟩,
            none, [Effect.authGetUser, Effect.updatePolls]⟩ := by
        rw [updatePoll.eq_def, if_neg hv1, if_neg hv2, if_neg hv3]
      rw [hstep, map_eq_self_of _ _ (fun a ha => by
        have h5 := hallb a ha
        rw [Bool.not_eq_true'] at h5
        rw [if_neg (by simp [h5])])]

/-- Witness for the ownership claim: the authenticated witness user owns
no poll with the requested id, and both mutations succeed while leaving
the concrete database untouched. -/
theorem deletePoll_updatePoll_owner_scoped_witness :
    deletePoll "p9" ⟨some u0, none⟩ none db0 =
      ⟨db0, none, [Effect.authGetUser, Effect.deletePolls, Effect.revalidatePolls]⟩ ∧
    updatePoll "p9" (some "New question?") ["Yes", "No"] ⟨some u0, none⟩ none db0 =
      ⟨db0, none, [Effect.authGetUser, Effect.updatePolls]⟩ := by
  have h := deletePoll_updatePoll_owner_scoped "p9" (some "New question?") ["Yes", "No"]
    ⟨some u0, none⟩ none none db0
  have h2 := h.2 u0 rfl (by decide)
  exact ⟨h2.1 rfl, h2.2 rfl (by decide) (by decide) (by decide)⟩

/-- Cache-invalidation count of createPoll: exactly one on success, none
on any failure path. -/
theorem createPoll_reval_count (questionRaw : Option String) (optionsRaw : List String)
    (authRes : GetUserRes) (insertErr : Option String) (newId : String) (now : Nat) (db : DB) :
    ((createPoll questionRaw optionsRaw authRes insertErr newId now db).error = none →
      (createPoll questionRaw optionsRaw authRes insertErr newId now db).effects.count
        Effect.revalidatePolls = 1) ∧
    ((createPoll questionRaw optionsRaw authRes insertErr newId now db).error ≠ none →
      (createPoll questionRaw optionsRaw authRes insertErr newId now db).effects.count
        Effect.revalidatePolls = 0) := by
  rw [createPoll.eq_def]
  by_cases h1 : sanitizeQuestion questionRaw = "" ∨ (trimFilter optionsRaw).length < 2
  · rw [if_pos h1]
    exact ⟨fun h => absurd h (by simp), fun _ => rfl⟩
  · rw [if_neg h1]
    by_cases h2 : isValidPollText (sanitizeQuestion questionRaw) = false
    · rw [if_pos h2]
      exact ⟨fun h => absurd h (by simp), fun _ => rfl⟩
    · rw [if_neg h2]
      by_cases h3 : (trimFilter optionsRaw).any (fun o => ! isValidPollText o) = true
      · rw [if_pos h3]
        exact ⟨fun h => absurd h (by simp), fun _ => rfl⟩
      · rw [if_neg h3]
        cases authRes.error with
        | some e => exact ⟨fun h => absurd h (by simp), fun _ => rfl⟩
        | none =>
          cases authRes.user with
          | none => exact ⟨fun h => absurd h (by simp), fun _ => rfl⟩
          | some u =>
            cases insertErr with
            | some e => exact ⟨fun h => absurd h (by simp), fun _ => rfl⟩
            | none => exact ⟨fun _ => rfl, fun h => absurd rfl h⟩

/-- Cache-invalidation count of deletePoll: exactly one on success, none
on any failure path. -/
theorem deletePoll_reval_count (id : String) (authRes : GetUserRes) (delErr : Option String)
    (db : DB) :
    ((deletePoll id authRes delErr db).error = none →
      (deletePoll id authRes delErr db).effects.count Effect.revalidatePolls = 1) ∧
    ((deletePoll id authRes delErr db).error ≠ none →
      (deletePoll id authRes delErr db).effects.count Effect.revalidatePolls = 0) := by
  rw [deletePoll.eq_def]
  cases authRes.error with
  | some e => exact ⟨fun h => absurd h (by simp), fun _ => rfl⟩
  | none =>
    cases authRes.user with
    | none => exact ⟨fun h => absurd h (by simp), fun _ => rfl⟩
    | some u =>
      cases delErr with
      | some e => exact ⟨fun h => absurd h (by simp), fun _ => rfl⟩
      | none => exact ⟨fun _ => rfl, fun h => absurd rfl h⟩

/-- The updatePoll server action itself emits no cache-invalidation signal
on any path. -/
theorem updatePoll_reval_count (pollId : String) (questionRaw : Option String)
    (optionsRaw : List String) (authRes : GetUserRes) (updErr : Option String) (db : DB) :
    (updatePoll pollId questionRaw optionsRaw authRes updErr db).effects.count
      Effect.revalidatePolls = 0 := by
  rw [updatePoll.eq_def]
  by_cases h1 : sanitizeQuestion questionRaw = "" ∨ (trimFilter optionsRaw).length < 2
  · rw [if_pos h1]; rfl
  · rw [if_neg h1]
    by_cases h2 : isValidPollText (sanitizeQuestion questionRaw) = false
    · rw [if_pos h2]; rfl
    · rw [if_neg h2]
      by_cases h3 : (trimFilter optionsRaw).any (fun o => ! isValidPollText o) = true
      · rw [if_pos h3]; rfl
      · rw [if_neg h3]
        cases authRes.error with
        | some e => rfl
        | none =>
          cases authRes.user with
          | none => rfl
          | some u =>
            cases updErr with
            | some e => rfl
            | none => rfl

/-- Cache-invalidation count of the spec-modelled update call path:
exactly one on success, none on any failure path. -/
theorem updatePollPath_reval_count (pollId : String) (questionRaw : Option String)
    (optionsRaw : List String) (authRes : GetUserRes) (updErr : Option String) (db : DB) :
    ((updatePollPath pollId questionRaw optionsRaw authRes updErr db).error = none →
      (updatePollPath pollId questionRaw optionsRaw authRes updErr db).effects.count
        Effect.revalidatePolls = 1) ∧
    ((updatePollPath pollId questionRaw optionsRaw authRes updErr db).error ≠ none →
      (updatePollPath pollId questionRaw optionsRaw authRes updErr db).effects.count
        Effect.revalidatePolls = 0) := by
  have h0 := updatePoll_reval_count pollId questionRaw optionsRaw authRes updErr db
  rw [updatePollPath.eq_def]
  cases hm : updatePoll pollId questionRaw optionsRaw authRes updErr db with
  | mk db2 err effs =>
    rw [hm] at h0
    cases err with
    | none =>
      refine ⟨fun _ => ?_, fun h => absurd rfl h⟩
      simp only [List.count_append, h0]
      rfl
    | some e => exact ⟨fun h => absurd h (by simp), fun _ => h0⟩

/-- C7: successful createPoll and deletePoll runs emit exactly one
cache-invalidation signal for the poll listing view and failing runs emit
none; the updatePoll action itself emits none, while the spec-modelled
update call path emits exactly one on success and none on failure. -/
theorem mutations_cache_invalidation
    (questionRaw : Option String) (optionsRaw : List String) (authRes : GetUserRes)
    (errOpt : Option String) (newId : String) (now : Nat) (db : DB) (pollId : String) :
    (((createPoll questionRaw optionsRaw authRes errOpt newId now db).error = none →
        (createPoll questionRaw optionsRaw authRes errOpt newId now db).effects.count
          Effect.revalidatePolls = 1) ∧
      ((createPoll questionRaw optionsRaw authRes errOpt newId now db).error ≠ none →
        (createPoll questionRaw optionsRaw authRes errOpt newId now db).effects.count
          Effect.revalidatePolls = 0)) ∧
    (((deletePoll pollId authRes errOpt db).error = none →
        (deletePoll pollId authRes errOpt db).effects.count Effect.revalidatePolls = 1) ∧
      ((deletePoll pollId authRes errOpt db).error ≠ none →
        (deletePoll pollId authRes errOpt db).effects.count Effect.revalidatePolls = 0)) ∧
    ((updatePoll pollId questionRaw optionsRaw authRes errOpt db).effects.count
        Effect.revalidatePolls = 0) ∧
    (((updatePollPath pollId questionRaw optionsRaw authRes errOpt db).error = none →
        (updatePollPath pollId questionRaw optionsRaw authRes errOpt db).effects.count
          Effect.revalidatePolls = 1) ∧
      ((updatePollPath pollId questionRaw optionsRaw authRes errOpt db).error ≠ none →
        (updatePollPath pollId questionRaw optionsRaw authRes errOpt db).effects.count
          Effect.revalidatePolls = 0)) :=
  ⟨createPoll_reval_count questionRaw optionsRaw authRes errOpt newId now db,
    deletePoll_reval_count pollId authRes errOpt db,
    updatePoll_reval_count pollId questionRaw optionsRaw authRes errOpt db,
    updatePollPath_reval_count pollId questionRaw optionsRaw authRes errOpt db⟩

/-- Witness for the cache-invalidation claim at concrete successful and
failing runs. -/
theorem mutations_cache_invalidation_witness :
    (createPoll (some "Favorite food?") ["Rice", "Pasta"] ⟨some u0, none⟩ none "p3" 11 db0).effects.count
      Effect.revalidatePolls = 1 ∧
    (deletePoll "p1" ⟨some u0, none⟩ none db0).effects.count Effect.revalidatePolls = 1 ∧
    (updatePoll "p1" (some "Favorite food?") ["Rice", "Pasta"] ⟨some u0, none⟩ none db0).effects.count
      Effect.revalidatePolls = 0 ∧
    (updatePollPath "p1" (some "Favorite food?") ["Rice", "Pasta"] ⟨some u0, none⟩ none db0).effects.count
      Effect.revalidatePolls = 1 ∧
    (createPoll (some "Favorite food?") ["Rice"] ⟨some u0, none⟩ none "p3" 11 db0).effects.count
      Effect.revalidatePolls = 0 := by
  have h := mutations_cache_invalidation (some "Favorite food?") ["Rice", "Pasta"]
    ⟨some u0, none⟩ none "p3" 11 db0 "p1"
  have h2 := mutations_cache_invalidation (some "Favorite food?") ["Rice"]
    ⟨some u0, none⟩ none "p3" 11 db0 "p1"
  exact ⟨h.1.1 (by decide), h.2.1.1 (by decide), h.2.2.1,
    h.2.2.2.1 (by decide), h2.1.2 (by decide)⟩

/-- After a session-free event the held session is always null, so a run
of session-free events from the initial state keeps it null. -/
theorem runCtx_session_clear (evs : List CtxEvent) (s : CtxState)
    (hs : s.session = none) (h : evs.all (fun e => ! carriesSession e) = true) :
    (runCtx evs s).session = none := by
  induction evs generalizing s with
  | nil => exact hs
  | cons e evs ih =>
    rw [List.all_cons, Bool.and_eq_true] at h
    cases e with
    | initialFetch err u => exact ih (stepCtx (CtxEvent.initialFetch err u) s) rfl h.2
    | authChange sess =>
      cases sess with
      | none => exact ih (stepCtx (CtxEvent.authChange none) s) rfl h.2
      | some bs => exact absurd h.1 (by simp [carriesSession])
    | signOutEv => exact ih (stepCtx CtxEvent.signOutEv s) rfl h.2

/-- C10: the eager fetch on mount always writes null into the session
state whatever its outcome; along any event run from the initial state in
which no auth-state-change notification carries a session, the session
state stays null; and the user state, by contrast, is populated by a
single successful initial fetch alone. -/
theorem authContext_session_only_from_authChange :
    (∀ err u s, (stepCtx (CtxEvent.initialFetch err u) s).session = none) ∧
    (∀ evs, evs.all (fun e => ! carriesSession e) = true →
      (runCtx evs initialCtx).session = none) ∧
    (∃ err u, (stepCtx (CtxEvent.initialFetch err u) initialCtx).user ≠ none) := by
  refine ⟨?_, ?_, ?_⟩
  · intro err u s; rfl
  · intro evs h; exact runCtx_session_clear evs initialCtx rfl h
  · exact ⟨none, some u0, by decide⟩

/-- Witness for the context claim on a concrete event run: a fetch that
finds the user, a session-free notification and a sign-out leave the
session null. -/
theorem authContext_session_witness :
    (runCtx [CtxEvent.initialFetch none (some u0), CtxEvent.authChange none,
        CtxEvent.signOutEv] initialCtx).session = none :=
  authContext_session_only_from_authChange.2.1
    [CtxEvent.initialFetch none (some u0), CtxEvent.authChange none, CtxEvent.signOutEv]
    (by decide)
